import Mathlib

/-!
A shallow embedding of `src/walk.rs` (the concurrent scanning-and-dispatch
core of the `fd` file-search tool): the filter pipeline `filter_entry`,
the `EntryPrinter` buffering/streaming state machine with its `Drop`
teardown, the printer-mode receiver loop of `spawn_receiver`, and the
sequential skeleton of `scan`.

Modelling conventions:
* Paths (`PathBuf`, `&Path`, `OsStr` byte strings) are modelled by `String`.
* Filesystem queries made by the code (`symlink_metadata`, `metadata`,
  `is_file`, `Path::file_name`, `filesystem::path_absolute_form`,
  `filesystem::is_empty`) are an explicit oracle `FS`, fixed per call.
* External predicate types consumed (not defined) by `walk.rs`
  (the compiled `Regex` matcher, `SizeFilter::is_within`,
  `TimeFilter::applies_to`, `OwnerFilter::matches`) are modelled as
  boolean-valued functions.
* Panics (`unreachable!`, `.expect`) are modelled by `Option`: a result of
  `none` is a panic.
* Machine integers (`usize`, `u64`) are modelled as `Nat`; none of the
  embedded code performs arithmetic that can overflow in practice
  (`num_results + 1`, length comparisons), so no wrap-around is modelled.
-/

namespace Walk

/-- Paths are modelled by their byte-string form. -/
abbrev FPath := String

/-- The kind of a `std::io::Error`, as far as `walk.rs` inspects it. -/
inductive IOErrorKind where
  | notFound
  | otherKind
deriving DecidableEq, Repr

/-- The `ignore::Error` variants that `walk.rs` constructs or inspects:
`WithPath { path, err }` and `Io(io_error)`; every other variant is
collapsed into `otherErr`. -/
inductive IgnoreError where
  | io (kind : IOErrorKind)
  | withPath (path : FPath) (err : IgnoreError)
  | otherErr (msg : String)
deriving DecidableEq, Repr

/-- Code `std::fs::FileType`, as far as the code queries it (`is_file`, `is_dir`,
`is_symlink`, and the external `filesystem::is_socket` / `is_pipe`
predicates, which only look at the file type). -/
structure FileType where
  isFile : Bool
  isDir : Bool
  isSymlink : Bool
  isSocket : Bool
  isPipe : Bool
deriving DecidableEq, Repr

/-- Code `std::fs::Metadata`, as far as the code queries it: file type, `len()`,
`modified()` (which can fail), and the external `filesystem::is_executable`
predicate evaluated on it. -/
structure Metadata where
  fileType : FileType
  len : Nat
  modified : Option Nat
  isExecutable : Bool
deriving DecidableEq, Repr

/-- The compiled pattern (`regex::bytes::Regex`): `walk.rs` only calls
`is_match` on byte strings. -/
abbrev Matcher := String → Bool

/-- The `--type` filter options (`config.file_types`), with exactly the
fields read at `walk.rs:496-520`. -/
structure FileTypes where
  files : Bool
  directories : Bool
  symlinks : Bool
  sockets : Bool
  pipes : Bool
  executablesOnly : Bool
  emptyOnly : Bool

/-- A size constraint (`SizeFilter`): `walk.rs` only calls `is_within(len)`. -/
structure SizeConstraint where
  isWithin : Nat → Bool

/-- A time constraint (`TimeFilter`): `walk.rs` only calls
`applies_to(modified)`. -/
structure TimeConstraint where
  appliesTo : Nat → Bool

/-- The owner constraint (`OwnerFilter`): `walk.rs` only calls
`matches(metadata)`. -/
structure OwnerConstraint where
  ownerMatches : Metadata → Bool

/-- An `--exclude` pattern as handed to `OverrideBuilder::add`, which can
reject it as malformed; the external glob parser is modelled by the
`malformed` flag. -/
structure ExcludePattern where
  raw : String
  malformed : Bool

/-- Modelled from the spec: the immutable configuration snapshot
(`crate::options::Options`, supplied by the CLI layer and not part of
`src/`), restricted to the fields `walk.rs` reads. -/
structure Options where
  excludePatterns : List ExcludePattern
  ignoreHidden : Bool
  readFdignore : Bool
  readVcsignore : Bool
  readGlobalIgnore : Bool
  followLinks : Bool
  oneFileSystem : Bool
  maxDepth : Option Nat
  minDepth : Option Nat
  searchFullPath : Bool
  extensions : Option Matcher
  fileTypes : Option FileTypes
  ownerConstraint : Option OwnerConstraint
  sizeConstraints : List SizeConstraint
  timeConstraints : List TimeConstraint
  prune : Bool
  maxBufferTime : Option Nat
  maxResults : Option Nat
  showFilesystemErrors : Bool
  threads : Nat

/-- Modelled from the spec: the process exit outcomes
(`crate::exit_codes::ExitCode`, not part of `src/`): success, general
error, and the reserved "killed by interrupt" code. -/
inductive ExitCode where
  | success
  | generalError
  | killedBySigint
deriving DecidableEq, Repr

/-- The filesystem oracle: the results of the filesystem queries `walk.rs`
performs during one `filter_entry` call, keyed by path. -/
structure FS where
  /-- Code `path.symlink_metadata().ok()` -/
  symlinkMetadata : FPath → Option Metadata
  /-- Code `entry_path.metadata().ok()` (follows symlinks) -/
  pathMetadata : FPath → Option Metadata
  /-- Code `entry_path.is_file()` -/
  isFile : FPath → Bool
  /-- Code `Path::file_name` (`none` for paths like `foo/..` or `/`) -/
  fileName : FPath → Option String
  /-- Code `filesystem::path_absolute_form(entry_path).ok()` -/
  absoluteForm : FPath → Option FPath
  /-- Code `filesystem::is_empty(&entry)` for the entry at this path -/
  isEmpty : FPath → Bool

/-- An entry handle produced by the traversal engine
(`ignore::DirEntry`), with the accessors `walk.rs` calls on it. -/
structure RawDirEntry where
  path : FPath
  depth : Nat
  /-- Code `e.file_type()` -/
  fileType : Option FileType
  /-- Code `e.metadata().ok()` -/
  metadata : Option Metadata
deriving DecidableEq, Repr

/-- Code `walk.rs:350-353`: `enum DirEntry { Normal(&ignore::DirEntry),
BrokenSymlink(PathBuf) }`. -/
inductive DirEntry where
  | normal (e : RawDirEntry)
  | brokenSymlink (path : FPath)
deriving DecidableEq, Repr

/-- Code `walk.rs:356-361`: `DirEntry::path`. -/
def DirEntry.path : DirEntry → FPath
  | .normal e => e.path
  | .brokenSymlink pathbuf => pathbuf

/-- Code `walk.rs:363-370`: `DirEntry::file_type`; for a broken symlink it reads
`symlink_metadata` through the filesystem oracle. -/
def DirEntry.fileType (fs : FS) : DirEntry → Option FileType
  | .normal e => e.fileType
  | .brokenSymlink pathbuf => (fs.symlinkMetadata pathbuf).map (·.fileType)

/-- Code `walk.rs:372-377`: `DirEntry::metadata`. -/
def DirEntry.metadata : DirEntry → Option Metadata
  | .normal e => e.metadata
  | .brokenSymlink _ => none

/-- Code `walk.rs:379-384`: `DirEntry::depth`. -/
def DirEntry.depth : DirEntry → Option Nat
  | .normal e => some e.depth
  | .brokenSymlink _ => none

/-- Code `walk.rs:36-39`: `enum WorkerResult { Entry(PathBuf), Error(ignore::Error) }`. -/
inductive WorkerResult where
  | entry (path : FPath)
  | error (err : IgnoreError)
deriving DecidableEq, Repr

/-- Code `ignore::WalkState` (`Continue` is rendered `cont`). -/
inductive WalkState where
  | cont
  | skip
  | quit
deriving DecidableEq, Repr

/-! Part: the filter pipeline (`filter_entry`, `walk.rs:420-578`) -/

/-- Code `walk.rs:456-460`: the minimum-depth check.  Returns `true` when the
entry must be dropped: a configured minimum depth and an undetermined
(`None`) or below-threshold depth. -/
def minDepthDrop (config : Options) (entry : DirEntry) : Bool :=
  match config.minDepth with
  | some minDepth => (entry.depth.map fun d => decide (d < minDepth)).getD true
  | none => false

/-- Code `walk.rs:465-478`: the search string: the absolute path form in
full-path mode (the code `.expect`s success), else the final path
component (`unreachable!` when absent).  `none` is a panic. -/
def searchStr (config : Options) (fs : FS) (entry_path : FPath) : Option String :=
  if config.searchFullPath then
    fs.absoluteForm entry_path
  else
    fs.fileName entry_path

/-- Code `walk.rs:485-493`: the extension filter.  Returns `true` when the
entry passes (no extension filter configured, or the file name exists and
matches the extension regex). -/
def extensionPass (config : Options) (fs : FS) (entry_path : FPath) : Bool :=
  match config.extensions with
  | some extsRegex =>
    match fs.fileName entry_path with
    | some pathStr => extsRegex pathStr
    | none => false
  | none => true

/-- Code `walk.rs:496-520`: the file-type filter.  Returns `true` when the
entry passes. -/
def fileTypesPass (config : Options) (fs : FS) (entry : DirEntry) : Bool :=
  match config.fileTypes with
  | some fileTypes =>
    match entry.fileType fs with
    | some entryType =>
      !((!fileTypes.files && entryType.isFile)
        || (!fileTypes.directories && entryType.isDir)
        || (!fileTypes.symlinks && entryType.isSymlink)
        || (!fileTypes.sockets && entryType.isSocket)
        || (!fileTypes.pipes && entryType.isPipe)
        || (fileTypes.executablesOnly
            && !((entry.metadata.map (·.isExecutable)).getD false))
        || (fileTypes.emptyOnly && !fs.isEmpty entry.path)
        || !(entryType.isFile || entryType.isDir || entryType.isSymlink
             || entryType.isSocket || entryType.isPipe))
    | none => false
  | none => true

/-- Code `walk.rs:522-533`: the owner filter (unix).  Returns `true` when the
entry passes. -/
def ownerPass (config : Options) (fs : FS) (entry_path : FPath) : Bool :=
  match config.ownerConstraint with
  | some ownerConstraint =>
    match fs.pathMetadata entry_path with
    | some metadata => ownerConstraint.ownerMatches metadata
    | none => false
  | none => true

/-- Code `walk.rs:535-553`: the size filter.  Returns `true` when the entry
passes: vacuously with no size constraint; otherwise the path must be a
regular file with readable metadata whose length violates no constraint. -/
def sizePass (config : Options) (fs : FS) (entry_path : FPath) : Bool :=
  if config.sizeConstraints.isEmpty then true
  else if fs.isFile entry_path then
    match fs.pathMetadata entry_path with
    | some metadata =>
      !(config.sizeConstraints.any fun sc => !sc.isWithin metadata.len)
    | none => false
  else false

/-- Code `walk.rs:555-569`: the modification-time filter.  Returns `true` when
the entry passes. -/
def timePass (config : Options) (fs : FS) (entry_path : FPath) : Bool :=
  if config.timeConstraints.isEmpty then true
  else
    match fs.pathMetadata entry_path with
    | some metadata =>
      match metadata.modified with
      | some modified => config.timeConstraints.all fun tf => tf.appliesTo modified
      | none => false
    | none => false

/-- Code `walk.rs:425`: `(ignore::WalkState::Continue, None)`. -/
def emptyOk : WalkState × Option WorkerResult := (WalkState.cont, none)

/-- Code `walk.rs:456-577`: the body of `filter_entry` after the `entry`
binding: minimum depth, name/path match, extension, file type, owner,
size, time, pruning.  `none` is a panic (`unreachable!` on a missing file
name in name mode, `.expect` failure on the absolute form). -/
def filterEntryRest (config : Options) (pattern : Matcher) (fs : FS)
    (entry : DirEntry) : Option (WalkState × Option WorkerResult) :=
  if minDepthDrop config entry then some emptyOk else
  let entry_path := entry.path
  match searchStr config fs entry_path with
  | none => none
  | some search_str =>
    if !pattern search_str then some emptyOk else
    if !extensionPass config fs entry_path then some emptyOk else
    if !fileTypesPass config fs entry then some emptyOk else
    if !ownerPass config fs entry_path then some emptyOk else
    if !sizePass config fs entry_path then some emptyOk else
    if !timePass config fs entry_path then some emptyOk else
    let next := if config.prune then WalkState.skip else WalkState.cont
    some (next, some (WorkerResult.entry entry_path))

/-- Code `walk.rs:420-578`: `filter_entry`.  The entry classification
(`walk.rs:427-454`): a depth-0 entry is dropped; a `WithPath` error whose
inner error is I/O "not found" and whose path's symlink metadata shows a
symlink becomes `BrokenSymlink`; any other error is forwarded as
`(Continue, Some(Error(..)))`.  The classified entry then runs through
`filterEntryRest`.  `none` is a panic. -/
def filterEntry (config : Options) (pattern : Matcher) (fs : FS)
    (entry_o : Except IgnoreError RawDirEntry) :
    Option (WalkState × Option WorkerResult) :=
  match entry_o with
  | .ok e =>
    if e.depth = 0 then some emptyOk
    else filterEntryRest config pattern fs (DirEntry.normal e)
  | .error (.withPath path inner_err) =>
    match inner_err with
    | .io .notFound =>
      if ((fs.symlinkMetadata path).map (·.fileType.isSymlink)).getD false then
        filterEntryRest config pattern fs (DirEntry.brokenSymlink path)
      else
        some (WalkState.cont,
          some (WorkerResult.error (IgnoreError.withPath path inner_err)))
    | _ =>
      some (WalkState.cont,
        some (WorkerResult.error (IgnoreError.withPath path inner_err)))
  | .error err => some (WalkState.cont, some (WorkerResult.error err))

/-! Part: the printer state machine (`EntryPrinter`, `walk.rs:259-348`) -/

/-- Code `walk.rs:26-33`: `enum ReceiverMode { Buffering, Streaming }`. -/
inductive ReceiverMode where
  | buffering
  | streaming
deriving DecidableEq, Repr

/-- Code `walk.rs:42`: maximum buffer size before flushing. -/
def MAX_BUFFER_LENGTH : Nat := 1000

/-- Code `walk.rs:259-267`: the mutable state of `EntryPrinter` (the borrowed
`config`, `stdout`, `wants_to_quit` and the fixed `start` instant live
outside the state; elapsed time is an input to `accept`). -/
structure EntryPrinter where
  mode : ReceiverMode
  buffer : List FPath
  numResults : Nat
deriving DecidableEq, Repr

/-- Code `walk.rs:270-280`: `EntryPrinter::new`. -/
def EntryPrinter.new : EntryPrinter :=
  { mode := ReceiverMode.buffering, buffer := [], numResults := 0 }

/-- The observable outcome of one `accept` call: the successor state, the
paths passed to `output::print_entry` in call order, the errors passed to
`print_error`, and the returned `bool`. -/
structure AcceptResult where
  state : EntryPrinter
  printed : List FPath
  errors : List IgnoreError
  cont : Bool
deriving DecidableEq, Repr

/-- Code `walk.rs:282-334`: `EntryPrinter::accept`.  `elapsed` is the value of
`time::Instant::now() - self.start` at the buffering check. -/
def EntryPrinter.accept (s : EntryPrinter) (config : Options) (elapsed : Nat)
    (worker_result : WorkerResult) : AcceptResult :=
  let max_buffer_time := config.maxBufferTime.getD 100
  let step : EntryPrinter × List FPath × List IgnoreError :=
    match worker_result with
    | .entry value =>
      match s.mode with
      | .buffering =>
        let buffer := s.buffer ++ [value]
        if buffer.length > MAX_BUFFER_LENGTH || elapsed > max_buffer_time then
          ({ mode := ReceiverMode.streaming, buffer := [],
             numResults := s.numResults + 1 }, buffer, [])
        else
          ({ s with buffer := buffer, numResults := s.numResults + 1 }, [], [])
      | .streaming =>
        ({ s with numResults := s.numResults + 1 }, [value], [])
    | .error err =>
      (s, [], if config.showFilesystemErrors then [err] else [])
  let cont : Bool :=
    match config.maxResults with
    | some max_results => if step.1.numResults ≥ max_results then false else true
    | none => true
  { state := step.1, printed := step.2.1, errors := step.2.2, cont := cont }

/-- Code `walk.rs:337-348`: `impl Drop for EntryPrinter`: the paths printed at
teardown — the buffer, sorted (`Vec::sort` is a stable sort by `≤`),
when non-empty. -/
def EntryPrinter.dropOutput (s : EntryPrinter) : List FPath :=
  if s.buffer.isEmpty then []
  else s.buffer.insertionSort (· ≤ ·)

/-- The result of the printer-mode receiver loop. -/
structure RunResult where
  state : EntryPrinter
  printed : List FPath
  errors : List IgnoreError
  consumed : List (Nat × WorkerResult)
deriving DecidableEq, Repr

/-- Code `walk.rs:248-252`: the printer-mode receiver loop of `spawn_receiver`:
consume queue messages through `accept` until it returns `false` or the
queue closes.  Each message carries the elapsed time observed when it is
accepted. -/
def runReceiver (config : Options) (s : EntryPrinter) :
    List (Nat × WorkerResult) → RunResult
  | [] => { state := s, printed := [], errors := [], consumed := [] }
  | (t, wr) :: rest =>
    let r := s.accept config t wr
    if r.cont then
      let rr := runReceiver config r.state rest
      { state := rr.state, printed := r.printed ++ rr.printed,
        errors := r.errors ++ rr.errors, consumed := (t, wr) :: rr.consumed }
    else
      { state := r.state, printed := r.printed, errors := r.errors,
        consumed := [(t, wr)] }

/-- The `Entry` paths among a message list, in arrival order. -/
def entriesOf (msgs : List (Nat × WorkerResult)) : List FPath :=
  msgs.filterMap fun m =>
    match m.2 with
    | .entry p => some p
    | .error _ => none

/-- Everything the printer-mode consumer writes to standard output over a
whole run from a fresh printer: the loop output followed by the `Drop`
teardown output. -/
def printerRunOutput (config : Options) (msgs : List (Nat × WorkerResult)) :
    List FPath :=
  (runReceiver config EntryPrinter.new msgs).printed ++
    (runReceiver config EntryPrinter.new msgs).state.dropOutput

/-! Part: the scan orchestration (`scan`, `walk.rs:49-197`, non-WASI branch) -/

/-- The traversal-engine configuration that `scan` builds
(`walk.rs:55-78, 126-128`): the base path of the override builder, the
primary walker root, the extra roots, and the engine toggles. -/
structure WalkerSetup where
  overrideBase : FPath
  primaryRoot : FPath
  extraRoots : List FPath
  hidden : Bool
  ignore : Bool
  parents : Bool
  gitIgnore : Bool
  gitGlobal : Bool
  gitExclude : Bool
  followLinks : Bool
  sameFileSystem : Bool
  maxDepth : Option Nat
deriving Repr

/-- The outcome of the `scan` skeleton: a panic (with the panic message),
a fatal configuration error (`Err` of `anyhow`), or success with the
walker setup and final exit code. -/
inductive ScanResult where
  | panic (msg : String)
  | err (msg : String)
  | ok (setup : WalkerSetup) (exit : ExitCode)

/-- Code `walk.rs:55-78, 126-128`: the traversal-engine configuration built
from the first root path, the remaining roots, and the config. -/
def walkerSetupOf (first_path_buf : FPath) (path_iter : List FPath)
    (config : Options) : WalkerSetup where
  overrideBase := first_path_buf
  primaryRoot := first_path_buf
  extraRoots := path_iter
  hidden := config.ignoreHidden
  ignore := config.readFdignore
  parents := config.readFdignore || config.readVcsignore
  gitIgnore := config.readVcsignore
  gitGlobal := config.readVcsignore
  gitExclude := config.readVcsignore
  followLinks := config.followLinks
  sameFileSystem := config.oneFileSystem
  maxDepth := config.maxDepth

/-- Code `walk.rs:49-166` (non-WASI): the sequential skeleton of `scan`.  The
thread orchestration is abstracted into two inputs: `consumerExit`, the
exit code returned by the joined receiver thread, and `finalFlag`, the
value of `wants_to_quit` read after the join.  `overridesBuildOk` models
whether `OverrideBuilder::build` succeeds.  The first path seeds the
override builder and the walker; the remaining paths are added as extra
roots; an empty path slice panics via `.expect`. -/
def scan (path_vec : List FPath) (config : Options) (overridesBuildOk : Bool)
    (consumerExit : ExitCode) (finalFlag : Bool) : ScanResult :=
  match path_vec with
  | [] => ScanResult.panic ("Error: Path vector can not be empty")
  | first_path_buf :: path_iter =>
    match config.excludePatterns.find? (·.malformed) with
    | some p => ScanResult.err ("Malformed exclude pattern: " ++ p.raw)
    | none =>
      if !overridesBuildOk then ScanResult.err ("Mismatch in exclude patterns")
      else
        let exit_code := consumerExit
        ScanResult.ok (walkerSetupOf first_path_buf path_iter config)
          (if finalFlag then ExitCode.killedBySigint else exit_code)

/-! Part: concrete fixtures for instantiating the theorems -/

/-- A baseline configuration: no filters, no limits, defaults everywhere. -/
def defaultOptions : Options where
  excludePatterns := []
  ignoreHidden := true
  readFdignore := true
  readVcsignore := true
  readGlobalIgnore := false
  followLinks := false
  oneFileSystem := false
  maxDepth := none
  minDepth := none
  searchFullPath := false
  extensions := none
  fileTypes := none
  ownerConstraint := none
  sizeConstraints := []
  timeConstraints := []
  prune := false
  maxBufferTime := none
  maxResults := none
  showFilesystemErrors := true
  threads := 1

/-- A filesystem oracle on which every metadata read fails and every path
is its own file name. -/
def bareFS : FS where
  symlinkMetadata := fun _ => none
  pathMetadata := fun _ => none
  isFile := fun _ => false
  fileName := fun p => some p
  absoluteForm := fun p => some p
  isEmpty := fun _ => false

/-- The file type of a symbolic link. -/
def symlinkType : FileType where
  isFile := false
  isDir := false
  isSymlink := true
  isSocket := false
  isPipe := false

/-- Metadata as read back from a dangling symbolic link. -/
def symlinkMeta : Metadata where
  fileType := symlinkType
  len := 0
  modified := none
  isExecutable := false

/-- The states of `EntryPrinter` reachable from construction by `accept`
calls. -/
inductive Reachable (config : Options) : EntryPrinter → Prop where
  | init : Reachable config EntryPrinter.new
  | step (s : EntryPrinter) (t : Nat) (wr : WorkerResult) :
      Reachable config s → Reachable config (s.accept config t wr).state

/-- The `bool` computed at `walk.rs:327-333` as a function of the updated
result counter. -/
def acceptCont (config : Options) (n : Nat) : Bool :=
  match config.maxResults with
  | some max_results => if n ≥ max_results then false else true
  | none => true

/-! Part: claim theorems -/

/-- C1: For every traversal callback input, the filter pipeline
produces no `WorkerResult` when the entry's depth is 0, and, when a
minimum depth `D` is configured, produces no `Entry` result for any entry
whose depth is below `D` or undetermined (broken symlinks, whose depth is
undetermined, are always dropped in that case). -/
theorem c1_depth_filtering (config : Options) (pattern : Matcher) (fs : FS) :
    (∀ e : RawDirEntry, e.depth = 0 →
      filterEntry config pattern fs (Except.ok e) =
        some (WalkState.cont, none)) ∧
    (∀ D, config.minDepth = some D →
      (∀ e : RawDirEntry, e.depth < D →
        filterEntry config pattern fs (Except.ok e) =
          some (WalkState.cont, none)) ∧
      (∀ err res, filterEntry config pattern fs (Except.error err) = some res →
        ∀ p, res.2 ≠ some (WorkerResult.entry p))) := by
  refine ⟨fun e he => ?_, fun D hD => ⟨fun e he => ?_, fun err res hres p => ?_⟩⟩
  · simp [filterEntry, he, emptyOk]
  · by_cases h0 : e.depth = 0
    · simp [filterEntry, h0, emptyOk]
    · simp [filterEntry, h0, filterEntryRest, minDepthDrop, hD,
        DirEntry.depth, he, emptyOk]
  · cases err with
    | withPath path inner =>
      cases inner with
      | io kind =>
        cases kind with
        | notFound =>
          by_cases hsym :
            ((fs.symlinkMetadata path).map (·.fileType.isSymlink)).getD false
          · simp [filterEntry, hsym, filterEntryRest, minDepthDrop, hD,
              DirEntry.depth, emptyOk] at hres
            simp [← hres]
          · simp [filterEntry, hsym] at hres
            simp [← hres]
        | otherKind =>
          simp [filterEntry] at hres
          simp [← hres]
      | withPath path2 err2 =>
        simp [filterEntry] at hres
        simp [← hres]
      | otherErr msg =>
        simp [filterEntry] at hres
        simp [← hres]
    | io kind =>
      simp [filterEntry] at hres
      simp [← hres]
    | otherErr msg =>
      simp [filterEntry] at hres
      simp [← hres]

/-- Witness for C1 at concrete inputs: minimum depth 2, an entry at
depth 1, a depth-0 entry, and a broken-symlink error. -/
theorem c1_depth_filtering_witness :
    (filterEntry { defaultOptions with minDepth := some 2 } (fun _ => true)
        bareFS (Except.ok ⟨"/r/a", 1, none, none⟩) =
      some (WalkState.cont, none)) ∧
    (filterEntry { defaultOptions with minDepth := some 2 } (fun _ => true)
        bareFS (Except.ok ⟨"/r", 0, none, none⟩) =
      some (WalkState.cont, none)) ∧
    (filterEntry { defaultOptions with minDepth := some 2 } (fun _ => true)
        bareFS (Except.error (IgnoreError.otherErr ("e"))) =
        some (WalkState.cont,
          some (WorkerResult.error (IgnoreError.otherErr ("e")))) ∧
      (WalkState.cont,
          some (WorkerResult.error (IgnoreError.otherErr ("e")))).2 ≠
        some (WorkerResult.entry ("/r/a"))) := by
  have h := c1_depth_filtering { defaultOptions with minDepth := some 2 }
    (fun _ => true) bareFS
  refine ⟨(h.2 2 rfl).1 ⟨"/r/a", 1, none, none⟩ (by decide),
    h.1 ⟨"/r", 0, none, none⟩ rfl, rfl, ?_⟩
  exact (h.2 2 rfl).2 (IgnoreError.otherErr ("e")) _ rfl ("/r/a")

/-- Inversion for `filterEntryRest`: a non-panicking run either drops the
entry (`emptyOk`) or emits `Entry(entry.path)` with the prune-controlled
continuation, in which case every filter stage passed. -/
theorem filterEntryRest_inv (config : Options) (pattern : Matcher) (fs : FS)
    (entry : DirEntry) (res : WalkState × Option WorkerResult)
    (h : filterEntryRest config pattern fs entry = some res) :
    res = emptyOk ∨
    (res = (if config.prune then WalkState.skip else WalkState.cont,
        some (WorkerResult.entry entry.path)) ∧
      minDepthDrop config entry = false ∧
      extensionPass config fs entry.path = true ∧
      fileTypesPass config fs entry = true ∧
      ownerPass config fs entry.path = true ∧
      sizePass config fs entry.path = true ∧
      timePass config fs entry.path = true) := by
  simp only [filterEntryRest] at h
  split at h
  · exact Or.inl (Option.some.inj h).symm
  · split at h
    · exact absurd h (by simp)
    · split at h
      · exact Or.inl (Option.some.inj h).symm
      · split at h
        · exact Or.inl (Option.some.inj h).symm
        · split at h
          · exact Or.inl (Option.some.inj h).symm
          · split at h
            · exact Or.inl (Option.some.inj h).symm
            · split at h
              · exact Or.inl (Option.some.inj h).symm
              · split at h
                · exact Or.inl (Option.some.inj h).symm
                · refine Or.inr ⟨(Option.some.inj h).symm, ?_, ?_, ?_, ?_, ?_, ?_⟩ <;>
                    simp_all

/-- C5 counterexample: The claim "an error never yields Quit or
Skip" is false: with pruning enabled, a "not found" `WithPath` error whose
path's symlink metadata shows a symlink is reclassified as a broken
symlink, passes all filters, and yields `Skip`. -/
theorem c5_error_skip_counterexample :
    filterEntry { defaultOptions with prune := true } (fun _ => true)
      { bareFS with symlinkMetadata := fun _ => some symlinkMeta }
      (Except.error
        (IgnoreError.withPath ("dangling") (IgnoreError.io IOErrorKind.notFound))) =
    some (WalkState.skip, some (WorkerResult.entry ("dangling"))) := rfl

/-- C5 amended: For every path-scoped traversal error: if the inner
error is I/O "not found" and the path's symlink metadata shows a symlink,
the error is reclassified as a `BrokenSymlink` entry that continues
through the remaining filters (and may therefore yield `Skip` when the
entry passes all filters and pruning is enabled); every other error is
forwarded as `(Continue, Error(..))`; an error input never yields
`Quit`. -/
theorem c5_error_reclassification (config : Options) (pattern : Matcher)
    (fs : FS) :
    (∀ path inner_err,
      inner_err = IgnoreError.io IOErrorKind.notFound →
      ((fs.symlinkMetadata path).map (·.fileType.isSymlink)).getD false = true →
      filterEntry config pattern fs
          (Except.error (IgnoreError.withPath path inner_err)) =
        filterEntryRest config pattern fs (DirEntry.brokenSymlink path)) ∧
    (∀ path inner_err,
      inner_err ≠ IgnoreError.io IOErrorKind.notFound ∨
        ((fs.symlinkMetadata path).map (·.fileType.isSymlink)).getD false = false →
      filterEntry config pattern fs
          (Except.error (IgnoreError.withPath path inner_err)) =
        some (WalkState.cont,
          some (WorkerResult.error (IgnoreError.withPath path inner_err)))) ∧
    (∀ err, (∀ path inner_err, err ≠ IgnoreError.withPath path inner_err) →
      filterEntry config pattern fs (Except.error err) =
        some (WalkState.cont, some (WorkerResult.error err))) ∧
    (∀ err res, filterEntry config pattern fs (Except.error err) = some res →
      res.1 ≠ WalkState.quit) := by
  refine ⟨fun path inner_err hio hsym => ?_, fun path inner_err hcase => ?_,
    fun err hshape => ?_, fun err res hres => ?_⟩
  · subst hio
    simp [filterEntry, hsym]
  · cases inner_err with
    | io kind =>
      cases kind with
      | notFound =>
        rcases hcase with hne | hsym
        · exact absurd rfl hne
        · simp [filterEntry, hsym]
      | otherKind => simp [filterEntry]
    | withPath path2 err2 => simp [filterEntry]
    | otherErr msg => simp [filterEntry]
  · cases err with
    | io kind => simp [filterEntry]
    | withPath path2 err2 => exact absurd rfl (hshape path2 err2)
    | otherErr msg => simp [filterEntry]
  · cases err with
    | withPath path inner =>
      cases inner with
      | io kind =>
        cases kind with
        | notFound =>
          by_cases hsym :
            ((fs.symlinkMetadata path).map (·.fileType.isSymlink)).getD false
          · simp only [filterEntry, hsym, if_pos] at hres
            rcases filterEntryRest_inv config pattern fs
              (DirEntry.brokenSymlink path) res hres with hr | ⟨hr, _⟩
            · simp [hr, emptyOk]
            · rw [hr]
              split <;> simp
          · simp [filterEntry, hsym] at hres
            simp [← hres]
        | otherKind =>
          simp [filterEntry] at hres
          simp [← hres]
      | withPath path2 err2 =>
        simp [filterEntry] at hres
        simp [← hres]
      | otherErr msg =>
        simp [filterEntry] at hres
        simp [← hres]
    | io kind =>
      simp [filterEntry] at hres
      simp [← hres]
    | otherErr msg =>
      simp [filterEntry] at hres
      simp [← hres]

/-- Witness for C5 at concrete inputs: a reclassified broken-symlink error
and a forwarded permission error. -/
theorem c5_error_reclassification_witness :
    (filterEntry defaultOptions (fun _ => true)
        { bareFS with symlinkMetadata := fun _ => some symlinkMeta }
        (Except.error
          (IgnoreError.withPath ("dl") (IgnoreError.io IOErrorKind.notFound))) =
      filterEntryRest defaultOptions (fun _ => true)
        { bareFS with symlinkMetadata := fun _ => some symlinkMeta }
        (DirEntry.brokenSymlink ("dl"))) ∧
    (filterEntry defaultOptions (fun _ => true) bareFS
        (Except.error
          (IgnoreError.withPath ("x") (IgnoreError.io IOErrorKind.otherKind))) =
      some (WalkState.cont,
        some (WorkerResult.error
          (IgnoreError.withPath ("x") (IgnoreError.io IOErrorKind.otherKind))))) := by
  constructor
  · exact (c5_error_reclassification defaultOptions (fun _ => true)
      { bareFS with symlinkMetadata := fun _ => some symlinkMeta }).1
      "dl" (IgnoreError.io IOErrorKind.notFound) rfl rfl
  · exact ((c5_error_reclassification defaultOptions (fun _ => true) bareFS).2.1
      "x" (IgnoreError.io IOErrorKind.otherKind) (Or.inl (by simp)))

/-- C6 counterexample: The claim "an entry lacking a final name
component produces no WorkerResult and does not fail, in both modes" is
false on both counts: in default name-only mode such an entry hits
`unreachable!` (a panic, modelled as `none`); in full-path mode with no
extension filter it can produce an `Entry` result. -/
theorem c6_no_name_counterexample :
    (filterEntry defaultOptions (fun _ => true)
        { bareFS with fileName := fun _ => none }
        (Except.ok ⟨"/", 1, none, none⟩) = none) ∧
    (filterEntry { defaultOptions with searchFullPath := true } (fun _ => true)
        { bareFS with fileName := fun _ => none }
        (Except.ok ⟨"/", 1, none, none⟩) =
      some (WalkState.cont, some (WorkerResult.entry ("/")))) :=
  ⟨rfl, rfl⟩

/-- C6 amended: For every discovered entry whose path lacks a final
name component and which survives the depth checks: in default name-only
mode the pipeline panics (`unreachable!`) instead of producing a result;
in full-path mode the file name is not consulted for matching, and
whenever an extension filter is configured the entry is dropped without
producing a `WorkerResult`. -/
theorem c6_no_name (config : Options) (pattern : Matcher) (fs : FS)
    (e : RawDirEntry) (hname : fs.fileName e.path = none) (h0 : e.depth ≠ 0)
    (hmin : minDepthDrop config (DirEntry.normal e) = false) :
    (config.searchFullPath = false →
      filterEntry config pattern fs (Except.ok e) = none) ∧
    (config.searchFullPath = true →
      ∀ ex, config.extensions = some ex →
      ∀ res, filterEntry config pattern fs (Except.ok e) = some res →
        res = emptyOk) := by
  constructor
  · intro hmode
    simp [filterEntry, h0, filterEntryRest, hmin, searchStr, hmode,
      DirEntry.path, hname]
  · intro hmode ex hex res hres
    simp only [filterEntry, h0, if_neg] at hres
    rcases filterEntryRest_inv config pattern fs (DirEntry.normal e) res hres
      with hr | ⟨_, _, hext, _⟩
    · exact hr
    · rw [extensionPass, hex, DirEntry.path, hname] at hext
      exact absurd hext (by simp)

/-- Witness for C6 at concrete inputs: a nameless entry in default mode
(panic) and in full-path mode with an extension filter (dropped). -/
theorem c6_no_name_witness :
    (filterEntry defaultOptions (fun _ => true)
        { bareFS with fileName := fun _ => none }
        (Except.ok ⟨"/x/..", 1, none, none⟩) = none) ∧
    ((WalkState.cont, (none : Option WorkerResult)) = emptyOk) := by
  have h := c6_no_name
    { defaultOptions with searchFullPath := true, extensions := some fun _ => true }
    (fun _ => true) { bareFS with fileName := fun _ => none }
    ⟨"/x/..", 1, none, none⟩ rfl (by decide) rfl
  refine ⟨?_, ?_⟩
  · exact (c6_no_name defaultOptions (fun _ => true)
      { bareFS with fileName := fun _ => none }
      ⟨"/x/..", 1, none, none⟩ rfl (by decide) rfl).1 rfl
  · exact h.2 rfl (fun _ => true) rfl (WalkState.cont, none) rfl

/-- C7: Whenever at least one size constraint is configured, the size
stage drops every entry that is not a regular file and every entry whose
metadata cannot be read, and passes a regular file exactly when its length
satisfies every configured size constraint; with no size constraint it
drops nothing; and an entry rejected by the size stage never becomes a
`WorkerResult` in the pipeline. -/
theorem c7_size_filter (config : Options) (pattern : Matcher) (fs : FS) :
    (config.sizeConstraints ≠ [] →
      (∀ p, fs.isFile p = false → sizePass config fs p = false) ∧
      (∀ p, fs.pathMetadata p = none → sizePass config fs p = false) ∧
      (∀ p m, fs.isFile p = true → fs.pathMetadata p = some m →
        (sizePass config fs p = true ↔
          ∀ sc ∈ config.sizeConstraints, sc.isWithin m.len = true))) ∧
    (config.sizeConstraints = [] → ∀ p, sizePass config fs p = true) ∧
    (∀ entry res, sizePass config fs entry.path = false →
      filterEntryRest config pattern fs entry = some res → res = emptyOk) := by
  refine ⟨fun hne => ⟨fun p hp => ?_, fun p hp => ?_, fun p m hf hm => ?_⟩,
    fun hempty p => ?_, fun entry res hsz hres => ?_⟩
  · simp [sizePass, hne, hp, List.isEmpty_iff]
  · have hne' : config.sizeConstraints.isEmpty = false := by
      simp [List.isEmpty_iff, hne]
    simp only [sizePass, hne', Bool.false_eq_true, if_false, hp]
    split <;> rfl
  · simp [sizePass, hne, hf, hm, List.isEmpty_iff, List.any_eq_true]
  · simp [sizePass, hempty]
  · rcases filterEntryRest_inv config pattern fs entry res hres
      with hr | ⟨_, _, _, _, _, hsz2, _⟩
    · exact hr
    · rw [hsz] at hsz2
      exact absurd hsz2 (by simp)

/-- Witness for C7 at concrete inputs: with a constraint requiring length
at least 10, a non-file is dropped, unreadable metadata is dropped, a
small file fails the constraint, and without constraints nothing drops. -/
theorem c7_size_filter_witness :
    (sizePass { defaultOptions with sizeConstraints := [⟨fun n => 10 ≤ n⟩] }
        bareFS ("/a") = false) ∧
    (sizePass defaultOptions bareFS ("/a") = true) ∧
    ((WalkState.cont, (none : Option WorkerResult)) = emptyOk) := by
  have h := c7_size_filter
    { defaultOptions with sizeConstraints := [⟨fun n => 10 ≤ n⟩] }
    (fun _ => true) bareFS
  refine ⟨(h.1 (by simp)).1 ("/a") rfl,
    (c7_size_filter defaultOptions (fun _ => true) bareFS).2.1 rfl ("/a"), ?_⟩
  exact h.2.2 (DirEntry.brokenSymlink ("/a")) (WalkState.cont, none)
    ((h.1 (by simp)).1 ("/a") rfl) rfl

/-- C2: For every `Entry` accepted while the printer is buffering, the
path is appended to the buffer; then, exactly when the buffer length
exceeds the fixed cap `MAX_BUFFER_LENGTH = 1000` or the elapsed time
exceeds the configured buffering threshold (100 when unconfigured), the
whole buffer is printed in arrival order, the buffer is cleared, and the
mode becomes streaming; every `Entry` accepted while streaming is printed
immediately. -/
theorem c2_buffering_accept (config : Options) (s : EntryPrinter) (t : Nat)
    (p : FPath) :
    (s.mode = ReceiverMode.buffering →
      (s.buffer ++ [p]).length > MAX_BUFFER_LENGTH ∨
          t > config.maxBufferTime.getD 100 →
      (s.accept config t (WorkerResult.entry p)).printed = s.buffer ++ [p] ∧
      (s.accept config t (WorkerResult.entry p)).state.buffer = [] ∧
      (s.accept config t (WorkerResult.entry p)).state.mode =
        ReceiverMode.streaming) ∧
    (s.mode = ReceiverMode.buffering →
      ¬((s.buffer ++ [p]).length > MAX_BUFFER_LENGTH ∨
          t > config.maxBufferTime.getD 100) →
      (s.accept config t (WorkerResult.entry p)).printed = [] ∧
      (s.accept config t (WorkerResult.entry p)).state.buffer = s.buffer ++ [p] ∧
      (s.accept config t (WorkerResult.entry p)).state.mode =
        ReceiverMode.buffering) ∧
    (s.mode = ReceiverMode.streaming →
      (s.accept config t (WorkerResult.entry p)).printed = [p] ∧
      (s.accept config t (WorkerResult.entry p)).state.buffer = s.buffer ∧
      (s.accept config t (WorkerResult.entry p)).state.mode =
        ReceiverMode.streaming) := by
  refine ⟨fun hmode hcond => ?_, fun hmode hcond => ?_, fun hmode => ?_⟩
  · rcases (by simpa using hcond :
        MAX_BUFFER_LENGTH < s.buffer.length + 1 ∨
          config.maxBufferTime.getD 100 < t) with h | h <;>
      simp [EntryPrinter.accept, hmode, h]
  · have h1 : ¬MAX_BUFFER_LENGTH < s.buffer.length + 1 := by
      intro h
      exact hcond (Or.inl (by simpa using h))
    have h2 : ¬config.maxBufferTime.getD 100 < t := fun h => hcond (Or.inr h)
    simp [EntryPrinter.accept, hmode, h1, h2]
  · simp [EntryPrinter.accept, hmode]

/-- Witness for C2 at concrete states: a below-threshold accept buffers,
an over-threshold accept flushes in arrival order and starts streaming,
and a streaming accept prints immediately. -/
theorem c2_buffering_accept_witness :
    ((EntryPrinter.new.accept defaultOptions 5
        (WorkerResult.entry ("b"))).state.buffer = [] ++ ["b"]) ∧
    ((⟨ReceiverMode.buffering, ["a"], 1⟩ : EntryPrinter).accept defaultOptions
        200 (WorkerResult.entry ("b"))).printed = ["a", "b"] ∧
    ((⟨ReceiverMode.streaming, [], 5⟩ : EntryPrinter).accept defaultOptions
        7 (WorkerResult.entry ("c"))).printed = ["c"] := by
  refine ⟨?_, ?_, ?_⟩
  · exact ((c2_buffering_accept defaultOptions EntryPrinter.new 5 ("b")).2.1 rfl
      (by decide)).2.1
  · exact ((c2_buffering_accept defaultOptions ⟨ReceiverMode.buffering, ["a"], 1⟩
      200 ("b")).1 rfl (Or.inr (by decide))).1
  · exact ((c2_buffering_accept defaultOptions ⟨ReceiverMode.streaming, [], 5⟩
      7 ("c")).2.2 rfl).1

/-- C9: Every reachable printer state satisfies the invariant: in
streaming mode the buffer is empty; consequently the teardown printing in
`Drop` (a non-empty buffer) can only occur while still buffering. -/
theorem c9_streaming_buffer_empty (config : Options) (s : EntryPrinter)
    (h : Reachable config s) :
    (s.mode = ReceiverMode.streaming → s.buffer = []) ∧
    (s.dropOutput ≠ [] → s.mode = ReceiverMode.buffering) := by
  have key : s.mode = ReceiverMode.streaming → s.buffer = [] := by
    induction h with
    | init => intro h; exact absurd h (by simp [EntryPrinter.new])
    | step s t wr _ ih =>
      intro hmode
      cases wr with
      | entry p =>
        cases hm : s.mode with
        | buffering =>
          simp only [EntryPrinter.accept, hm] at hmode ⊢
          split at hmode
          · split
            · rfl
            · simp_all
          · exact absurd hmode (by simp)
        | streaming =>
          simp only [EntryPrinter.accept, hm]
          exact ih hm
      | error e =>
        simp only [EntryPrinter.accept] at hmode ⊢
        exact ih hmode
  refine ⟨key, fun hdrop => ?_⟩
  cases hm : s.mode with
  | buffering => rfl
  | streaming =>
    exact absurd (by simp [EntryPrinter.dropOutput, key hm]) hdrop

/-- Witness for C9: the invariant instantiated at the freshly constructed
printer. -/
theorem c9_streaming_buffer_empty_witness :
    (EntryPrinter.new.mode = ReceiverMode.streaming →
      EntryPrinter.new.buffer = []) ∧
    (EntryPrinter.new.dropOutput ≠ [] →
      EntryPrinter.new.mode = ReceiverMode.buffering) :=
  c9_streaming_buffer_empty defaultOptions EntryPrinter.new Reachable.init

@[simp] theorem entriesOf_nil : entriesOf [] = [] := rfl

@[simp] theorem entriesOf_cons_entry (t : Nat) (p : FPath)
    (l : List (Nat × WorkerResult)) :
    entriesOf ((t, WorkerResult.entry p) :: l) = p :: entriesOf l := rfl

@[simp] theorem entriesOf_cons_error (t : Nat) (e : IgnoreError)
    (l : List (Nat × WorkerResult)) :
    entriesOf ((t, WorkerResult.error e) :: l) = entriesOf l := rfl

/-- The shape of `accept` on an `Error` message. -/
theorem accept_error_eq (s : EntryPrinter) (config : Options) (t : Nat)
    (e : IgnoreError) :
    s.accept config t (WorkerResult.error e) =
      { state := s, printed := [],
        errors := if config.showFilesystemErrors then [e] else [],
        cont := acceptCont config s.numResults } := rfl

/-- The shape of `accept` on an `Entry` message while buffering, in the
flushing and the non-flushing case. -/
theorem accept_entry_buffering_eq (s : EntryPrinter) (config : Options)
    (t : Nat) (p : FPath) (hm : s.mode = ReceiverMode.buffering) :
    (MAX_BUFFER_LENGTH < (s.buffer ++ [p]).length ∨
        config.maxBufferTime.getD 100 < t →
      s.accept config t (WorkerResult.entry p) =
        { state := ⟨ReceiverMode.streaming, [], s.numResults + 1⟩,
          printed := s.buffer ++ [p], errors := [],
          cont := acceptCont config (s.numResults + 1) }) ∧
    (¬(MAX_BUFFER_LENGTH < (s.buffer ++ [p]).length ∨
        config.maxBufferTime.getD 100 < t) →
      s.accept config t (WorkerResult.entry p) =
        { state := ⟨ReceiverMode.buffering, s.buffer ++ [p], s.numResults + 1⟩,
          printed := [], errors := [],
          cont := acceptCont config (s.numResults + 1) }) := by
  constructor
  · intro hc
    simp only [EntryPrinter.accept, hm]
    rw [if_pos (by simpa using hc)]
    rfl
  · intro hc
    simp only [EntryPrinter.accept, hm]
    rw [if_neg (by simpa using hc)]
    rfl

/-- The shape of `accept` on an `Entry` message while streaming. -/
theorem accept_entry_streaming_eq (s : EntryPrinter) (config : Options)
    (t : Nat) (p : FPath) (hm : s.mode = ReceiverMode.streaming) :
    s.accept config t (WorkerResult.entry p) =
      { state := ⟨ReceiverMode.streaming, s.buffer, s.numResults + 1⟩,
        printed := [p], errors := [],
        cont := acceptCont config (s.numResults + 1) } := by
  obtain ⟨mode, buffer, numResults⟩ := s
  cases hm
  rfl

/-- One unfolding step of the receiver loop. -/
theorem runReceiver_cons (config : Options) (s : EntryPrinter) (t : Nat)
    (wr : WorkerResult) (rest : List (Nat × WorkerResult)) :
    runReceiver config s ((t, wr) :: rest) =
      (let r := s.accept config t wr
      if r.cont then
        let rr := runReceiver config r.state rest
        { state := rr.state, printed := r.printed ++ rr.printed,
          errors := r.errors ++ rr.errors,
          consumed := (t, wr) :: rr.consumed }
      else
        { state := r.state, printed := r.printed, errors := r.errors,
          consumed := [(t, wr)] }) := rfl

/-- The structural invariant of the receiver loop: starting while
buffering, either the loop is still buffering with nothing printed and
the buffer extended by the consumed entries in arrival order, or it has
flushed, printed exactly the consumed entries in arrival order, and holds
an empty buffer; starting while streaming with an empty buffer, it stays
so and prints the consumed entries in arrival order. -/
theorem runReceiver_mode_printed (config : Options)
    (msgs : List (Nat × WorkerResult)) :
    ∀ s : EntryPrinter,
    (s.mode = ReceiverMode.buffering →
      ((runReceiver config s msgs).state.mode = ReceiverMode.buffering ∧
        (runReceiver config s msgs).printed = [] ∧
        (runReceiver config s msgs).state.buffer =
          s.buffer ++ entriesOf (runReceiver config s msgs).consumed) ∨
      ((runReceiver config s msgs).state.mode = ReceiverMode.streaming ∧
        (runReceiver config s msgs).printed =
          s.buffer ++ entriesOf (runReceiver config s msgs).consumed ∧
        (runReceiver config s msgs).state.buffer = [])) ∧
    (s.mode = ReceiverMode.streaming → s.buffer = [] →
      (runReceiver config s msgs).state.mode = ReceiverMode.streaming ∧
      (runReceiver config s msgs).state.buffer = [] ∧
      (runReceiver config s msgs).printed =
        entriesOf (runReceiver config s msgs).consumed) := by
  induction msgs with
  | nil =>
    intro s
    constructor
    · intro hm
      exact Or.inl ⟨hm, rfl, by simp [runReceiver]⟩
    · intro hm hb
      exact ⟨hm, hb, by simp [runReceiver]⟩
  | cons m rest ih =>
    obtain ⟨t, wr⟩ := m
    intro s
    constructor
    · intro hm
      cases wr with
      | entry p =>
        by_cases hc : MAX_BUFFER_LENGTH < (s.buffer ++ [p]).length ∨
            config.maxBufferTime.getD 100 < t
        · rw [runReceiver_cons,
            (accept_entry_buffering_eq s config t p hm).1 hc]
          by_cases hcont : acceptCont config (s.numResults + 1) = true
          · simp only [hcont, if_true]
            rcases (ih ⟨ReceiverMode.streaming, [], s.numResults + 1⟩).2
                rfl rfl with ⟨h1, h2, h3⟩
            refine Or.inr ⟨h1, ?_, h2⟩
            simp [h3]
          · simp only [hcont, if_false, Bool.false_eq_true]
            right
            refine ⟨?_, ?_, ?_⟩ <;> simp
        · rw [runReceiver_cons,
            (accept_entry_buffering_eq s config t p hm).2 hc]
          by_cases hcont : acceptCont config (s.numResults + 1) = true
          · simp only [hcont, if_true]
            rcases (ih ⟨ReceiverMode.buffering, s.buffer ++ [p],
                s.numResults + 1⟩).1 rfl with ⟨h1, h2, h3⟩ | ⟨h1, h2, h3⟩
            · refine Or.inl ⟨h1, by simp [h2], ?_⟩
              simp at h3 ⊢
              exact h3
            · refine Or.inr ⟨h1, ?_, h3⟩
              simp at h2 ⊢
              exact h2
          · simp only [hcont, if_false, Bool.false_eq_true]
            left
            refine ⟨?_, ?_, ?_⟩ <;> simp
      | error e =>
        rw [runReceiver_cons, accept_error_eq]
        by_cases hcont : acceptCont config s.numResults = true
        · simp only [hcont, if_true]
          rcases (ih s).1 hm with ⟨h1, h2, h3⟩ | ⟨h1, h2, h3⟩
          · refine Or.inl ⟨h1, by simp [h2], ?_⟩
            simp at h3 ⊢
            exact h3
          · refine Or.inr ⟨h1, ?_, h3⟩
            simp at h2 ⊢
            exact h2
        · simp only [hcont, if_false, Bool.false_eq_true]
          left
          refine ⟨?_, ?_, ?_⟩ <;> simp [hm]
    · intro hm hb
      cases wr with
      | entry p =>
        rw [runReceiver_cons, accept_entry_streaming_eq s config t p hm, hb]
        by_cases hcont : acceptCont config (s.numResults + 1) = true
        · simp only [hcont, if_true]
          rcases (ih ⟨ReceiverMode.streaming, [], s.numResults + 1⟩).2
              rfl rfl with ⟨h1, h2, h3⟩
          refine ⟨h1, h2, ?_⟩
          simp [h3]
        · simp only [hcont, if_false, Bool.false_eq_true]
          refine ⟨?_, ?_, ?_⟩ <;> simp
      | error e =>
        rw [runReceiver_cons, accept_error_eq]
        by_cases hcont : acceptCont config s.numResults = true
        · simp only [hcont, if_true]
          rcases (ih s).2 hm hb with ⟨h1, h2, h3⟩
          refine ⟨h1, h2, ?_⟩
          simp [h3]
        · simp only [hcont, if_false, Bool.false_eq_true]
          refine ⟨?_, ?_, ?_⟩ <;> simp [hm, hb]

/-- Code `accept` increments the counter exactly on `Entry` messages. -/
theorem accept_numResults (s : EntryPrinter) (config : Options) (t : Nat)
    (wr : WorkerResult) :
    (s.accept config t wr).state.numResults =
      s.numResults + (entriesOf [(t, wr)]).length := by
  cases wr with
  | entry p =>
    cases hm : s.mode with
    | buffering =>
      by_cases hc : MAX_BUFFER_LENGTH < (s.buffer ++ [p]).length ∨
          config.maxBufferTime.getD 100 < t
      · rw [(accept_entry_buffering_eq s config t p hm).1 hc]
        rfl
      · rw [(accept_entry_buffering_eq s config t p hm).2 hc]
        rfl
    | streaming =>
      rw [accept_entry_streaming_eq s config t p hm]
      rfl
  | error e =>
    rw [accept_error_eq]
    rfl

/-- The `bool` returned by `accept` on an `Entry` message, as a function
of the updated counter. -/
theorem accept_entry_cont (s : EntryPrinter) (config : Options) (t : Nat)
    (p : FPath) :
    (s.accept config t (WorkerResult.entry p)).cont =
      acceptCont config (s.numResults + 1) := by
  cases hm : s.mode with
  | buffering =>
    by_cases hc : MAX_BUFFER_LENGTH < (s.buffer ++ [p]).length ∨
        config.maxBufferTime.getD 100 < t
    · rw [(accept_entry_buffering_eq s config t p hm).1 hc]
    · rw [(accept_entry_buffering_eq s config t p hm).2 hc]
  | streaming => rw [accept_entry_streaming_eq s config t p hm]

/-- The receiver loop counts exactly the consumed `Entry` messages. -/
theorem runReceiver_numResults (config : Options)
    (msgs : List (Nat × WorkerResult)) :
    ∀ s : EntryPrinter,
    (runReceiver config s msgs).state.numResults =
      s.numResults +
        (entriesOf (runReceiver config s msgs).consumed).length := by
  induction msgs with
  | nil => intro s; simp [runReceiver]
  | cons m rest ih =>
    obtain ⟨t, wr⟩ := m
    intro s
    rw [runReceiver_cons]
    by_cases hcont : (s.accept config t wr).cont = true
    · simp only [hcont, if_true]
      have h1 := ih (s.accept config t wr).state
      have h2 := accept_numResults s config t wr
      cases wr with
      | entry p =>
        simp only [entriesOf_cons_entry, entriesOf_nil, List.length_cons,
          List.length_nil] at h1 h2 ⊢
        omega
      | error e =>
        simp only [entriesOf_cons_error, entriesOf_nil, List.length_nil] at h1 h2 ⊢
        omega
    · simp only [hcont, if_false, Bool.false_eq_true]
      exact accept_numResults s config t wr

/-- Teardown printing preserves the buffer length. -/
theorem dropOutput_length (s : EntryPrinter) :
    s.dropOutput.length = s.buffer.length := by
  unfold EntryPrinter.dropOutput
  split
  · simp_all [List.isEmpty_iff]
  · exact (List.perm_insertionSort _ _).length_eq

/-- The printer emits one line per consumed `Entry` message: loop output
plus teardown output together have the length of the consumed entries. -/
theorem printerRunOutput_length (config : Options)
    (msgs : List (Nat × WorkerResult)) :
    (printerRunOutput config msgs).length =
      (entriesOf (runReceiver config EntryPrinter.new msgs).consumed).length := by
  rcases (runReceiver_mode_printed config msgs EntryPrinter.new).1 rfl with
    ⟨_, h2, h3⟩ | ⟨_, h2, h3⟩
  · simp only [printerRunOutput, h2, List.nil_append, List.length_append,
      dropOutput_length, h3]
    simp [EntryPrinter.new]
  · simp only [printerRunOutput, List.length_append, dropOutput_length, h3, h2]
    simp [EntryPrinter.new]

/-- With a configured maximum `K`, a loop started below `K` that has at
least `K - numResults` entries available consumes entries up to exactly
`K`. -/
theorem runReceiver_stop (config : Options) (K : Nat)
    (hmax : config.maxResults = some K) (msgs : List (Nat × WorkerResult)) :
    ∀ s : EntryPrinter, s.numResults < K →
    K ≤ s.numResults + (entriesOf msgs).length →
    s.numResults +
      (entriesOf (runReceiver config s msgs).consumed).length = K := by
  induction msgs with
  | nil =>
    intro s h1 h2
    simp at h2
    omega
  | cons m rest ih =>
    obtain ⟨t, wr⟩ := m
    intro s h1 h2
    cases wr with
    | error e =>
      have hc : (s.accept config t (WorkerResult.error e)).cont = true := by
        rw [accept_error_eq]
        simp only [acceptCont, hmax]
        rw [if_neg (by omega)]
      rw [runReceiver_cons]
      simp only [hc, if_true, entriesOf_cons_error]
      exact ih s h1 (by simpa using h2)
    | entry p =>
      have hcont := accept_entry_cont s config t p
      have hnum := accept_numResults s config t (WorkerResult.entry p)
      simp only [entriesOf_cons_entry, entriesOf_nil, List.length_cons,
        List.length_nil] at hnum
      by_cases hfin : K ≤ s.numResults + 1
      · have hc : (s.accept config t (WorkerResult.entry p)).cont = false := by
          rw [hcont]
          simp only [acceptCont, hmax]
          rw [if_pos (by omega)]
        rw [runReceiver_cons]
        simp only [hc, Bool.false_eq_true, if_false, entriesOf_cons_entry,
          entriesOf_nil, List.length_cons, List.length_nil]
        omega
      · have hc : (s.accept config t (WorkerResult.entry p)).cont = true := by
          rw [hcont]
          simp only [acceptCont, hmax]
          rw [if_neg (by omega)]
        rw [runReceiver_cons]
        simp only [hc, if_true, entriesOf_cons_entry, List.length_cons]
        have hrec := ih (s.accept config t (WorkerResult.entry p)).state
          (by omega) (by simp only [entriesOf_cons_entry, List.length_cons] at h2; omega)
        omega

/-- C3: If the run ends with a non-empty buffer, the printer is still
buffering, and the whole output is the buffered paths sorted by path (a
sorted permutation of the arrival-order entries); whenever the final
buffer is empty, the whole output is exactly the arrival-order entries —
so the teardown sort is the only situation in which output order differs
from arrival order. -/
theorem c3_teardown_sorted (config : Options)
    (msgs : List (Nat × WorkerResult)) :
    ((runReceiver config EntryPrinter.new msgs).state.buffer ≠ [] →
      (runReceiver config EntryPrinter.new msgs).state.mode =
        ReceiverMode.buffering ∧
      printerRunOutput config msgs =
        List.insertionSort (· ≤ ·)
          (entriesOf (runReceiver config EntryPrinter.new msgs).consumed) ∧
      List.Sorted (· ≤ ·) (printerRunOutput config msgs) ∧
      (printerRunOutput config msgs).Perm
        (entriesOf (runReceiver config EntryPrinter.new msgs).consumed)) ∧
    ((runReceiver config EntryPrinter.new msgs).state.buffer = [] →
      printerRunOutput config msgs =
        entriesOf (runReceiver config EntryPrinter.new msgs).consumed) := by
  rcases (runReceiver_mode_printed config msgs EntryPrinter.new).1 rfl with
    ⟨h1, h2, h3⟩ | ⟨h1, h2, h3⟩
  · have h3' : (runReceiver config EntryPrinter.new msgs).state.buffer =
        entriesOf (runReceiver config EntryPrinter.new msgs).consumed := by
      simpa [EntryPrinter.new] using h3
    constructor
    · intro hne
      have hout : printerRunOutput config msgs =
          List.insertionSort (· ≤ ·)
            (entriesOf (runReceiver config EntryPrinter.new msgs).consumed) := by
        simp only [printerRunOutput, h2, List.nil_append,
          EntryPrinter.dropOutput, h3']
        rw [if_neg (by simp [← h3', List.isEmpty_iff, hne])]
      refine ⟨h1, hout, ?_, ?_⟩
      · rw [hout]
        exact List.sorted_insertionSort _ _
      · rw [hout]
        exact List.perm_insertionSort _ _
    · intro hbe
      rw [hbe] at h3'
      simp only [printerRunOutput, h2, List.nil_append, EntryPrinter.dropOutput,
        hbe]
      simp [← h3']
  · constructor
    · intro hne
      exact absurd h3 hne
    · intro _
      simp only [printerRunOutput, EntryPrinter.dropOutput, h3]
      simp only [List.isEmpty_nil, if_true, List.append_nil]
      simpa [EntryPrinter.new] using h2

/-- Witness for C3 at a concrete run that ends while still buffering: two
entries arrive in the order "b", "a" and the teardown prints them
sorted. -/
theorem c3_teardown_sorted_witness :
    (runReceiver defaultOptions EntryPrinter.new
        [(0, WorkerResult.entry ("b")), (0, WorkerResult.entry ("a"))]).state.mode =
      ReceiverMode.buffering ∧
    printerRunOutput defaultOptions
        [(0, WorkerResult.entry ("b")), (0, WorkerResult.entry ("a"))] =
      List.insertionSort (· ≤ ·)
        (entriesOf (runReceiver defaultOptions EntryPrinter.new
          [(0, WorkerResult.entry ("b")), (0, WorkerResult.entry ("a"))]).consumed) :=
  ⟨((c3_teardown_sorted defaultOptions
      [(0, WorkerResult.entry ("b")), (0, WorkerResult.entry ("a"))]).1
      (by decide)).1,
    ((c3_teardown_sorted defaultOptions
      [(0, WorkerResult.entry ("b")), (0, WorkerResult.entry ("a"))]).1
      (by decide)).2.1⟩

/-- C4 counterexample: The claim fails for a configured maximum of
`K = 0`: with one `Entry` message (`N = 1 > K`), the printer still emits
one entry line (the first message is processed before the limit check),
not `K = 0`. -/
theorem c4_zero_cap_counterexample :
    0 < (entriesOf [((0 : Nat), WorkerResult.entry ("a"))]).length ∧
    printerRunOutput { defaultOptions with maxResults := some 0 }
        [((0 : Nat), WorkerResult.entry ("a"))] = ["a"] := by
  constructor
  · decide
  · rfl

/-- C4 amended: For every message sequence with `N` entries and a
configured maximum `K` with `1 ≤ K < N`: the loop consumes exactly `K`
entries, emits exactly `K` entry lines, counts exactly `K` results, and
stops before consuming the whole queue; `Error` messages never increment
the result counter. -/
theorem c4_max_results (config : Options) (K : Nat)
    (msgs : List (Nat × WorkerResult)) (hmax : config.maxResults = some K)
    (hK : 1 ≤ K) (hN : K < (entriesOf msgs).length) :
    (entriesOf (runReceiver config EntryPrinter.new msgs).consumed).length = K ∧
    (printerRunOutput config msgs).length = K ∧
    (runReceiver config EntryPrinter.new msgs).state.numResults = K ∧
    (runReceiver config EntryPrinter.new msgs).consumed ≠ msgs ∧
    (∀ (s : EntryPrinter) (t : Nat) (e : IgnoreError),
      (s.accept config t (WorkerResult.error e)).state.numResults =
        s.numResults) := by
  have hstop := runReceiver_stop config K hmax msgs EntryPrinter.new
    (by simpa [EntryPrinter.new] using hK)
    (by simp only [EntryPrinter.new]; omega)
  have hlen : (entriesOf (runReceiver config EntryPrinter.new msgs).consumed).length = K := by
    simpa [EntryPrinter.new] using hstop
  refine ⟨hlen, ?_, ?_, ?_, fun s t e => rfl⟩
  · rw [printerRunOutput_length]
    exact hlen
  · have hnum := runReceiver_numResults config msgs EntryPrinter.new
    rw [hlen] at hnum
    simpa [EntryPrinter.new] using hnum
  · intro heq
    rw [heq] at hlen
    omega

/-- Witness for C4 at a concrete run: maximum 1, two entries and one
interleaved error; exactly one entry is consumed and printed and the
second entry message is never consumed. -/
theorem c4_max_results_witness :
    (entriesOf (runReceiver { defaultOptions with maxResults := some 1 }
        EntryPrinter.new
        [(0, WorkerResult.error (IgnoreError.otherErr ("e"))),
          (0, WorkerResult.entry ("a")),
          (0, WorkerResult.entry ("b"))]).consumed).length = 1 ∧
    (printerRunOutput { defaultOptions with maxResults := some 1 }
        [(0, WorkerResult.error (IgnoreError.otherErr ("e"))),
          (0, WorkerResult.entry ("a")),
          (0, WorkerResult.entry ("b"))]).length = 1 :=
  ⟨(c4_max_results { defaultOptions with maxResults := some 1 } 1
      [(0, WorkerResult.error (IgnoreError.otherErr ("e"))),
        (0, WorkerResult.entry ("a")), (0, WorkerResult.entry ("b"))]
      rfl (by decide) (by decide)).1,
    (c4_max_results { defaultOptions with maxResults := some 1 } 1
      [(0, WorkerResult.error (IgnoreError.otherErr ("e"))),
        (0, WorkerResult.entry ("a")), (0, WorkerResult.entry ("b"))]
      rfl (by decide) (by decide)).2.1⟩

/-- C8: After the consumer thread finishes, the final exit status of
`scan` is the reserved interrupt code when the cancellation flag is set at
that point, and otherwise is exactly the exit code the consumer
returned. -/
theorem c8_final_exit (path_vec : List FPath) (config : Options)
    (overridesBuildOk : Bool) (consumerExit : ExitCode) (finalFlag : Bool)
    (hne : path_vec ≠ [])
    (hexc : ∀ p ∈ config.excludePatterns, p.malformed = false)
    (hb : overridesBuildOk = true) :
    ∃ setup : WalkerSetup,
      (finalFlag = true →
        scan path_vec config overridesBuildOk consumerExit finalFlag =
          ScanResult.ok setup ExitCode.killedBySigint) ∧
      (finalFlag = false →
        scan path_vec config overridesBuildOk consumerExit finalFlag =
          ScanResult.ok setup consumerExit) := by
  have hfind : (config.excludePatterns.find? (·.malformed)) = none := by
    rw [List.find?_eq_none]
    intro p hp
    simp [hexc p hp]
  cases path_vec with
  | nil => exact absurd rfl hne
  | cons first rest =>
    refine ⟨walkerSetupOf first rest config, fun hf => ?_, fun hf => ?_⟩ <;>
      simp [scan, hfind, hb, hf]

/-- Witness for C8: one root, no exclude patterns, flag clear —
the consumer's exit code is returned verbatim. -/
theorem c8_final_exit_witness :
    ∃ setup : WalkerSetup,
      (false = true →
        scan ["/r"] defaultOptions true ExitCode.generalError false =
          ScanResult.ok setup ExitCode.killedBySigint) ∧
      (false = false →
        scan ["/r"] defaultOptions true ExitCode.generalError false =
          ScanResult.ok setup ExitCode.generalError) :=
  c8_final_exit ["/r"] defaultOptions true ExitCode.generalError false
    (by simp) (by simp [defaultOptions]) rfl

/-- C10: `scan` panics with "Error: Path vector can not be empty" on
an empty path slice; for every non-empty slice, the first path seeds both
the override builder and the walker, and the remaining paths are added as
extra roots. -/
theorem c10_scan_roots (config : Options) (overridesBuildOk : Bool)
    (consumerExit : ExitCode) (finalFlag : Bool) :
    (scan [] config overridesBuildOk consumerExit finalFlag =
      ScanResult.panic ("Error: Path vector can not be empty")) ∧
    (∀ (first : FPath) (rest : List FPath) (setup : WalkerSetup)
        (exit : ExitCode),
      scan (first :: rest) config overridesBuildOk consumerExit finalFlag =
        ScanResult.ok setup exit →
      setup.overrideBase = first ∧ setup.primaryRoot = first ∧
        setup.extraRoots = rest) := by
  refine ⟨rfl, fun first rest setup exit h => ?_⟩
  simp only [scan] at h
  rcases hfind : config.excludePatterns.find? (·.malformed) with _ | p
  · rw [hfind] at h
    rcases hb : overridesBuildOk with _ | _
    · rw [hb] at h
      simp at h
    · rw [hb] at h
      simp only [Bool.not_true, Bool.false_eq_true, if_false] at h
      cases h
      exact ⟨rfl, rfl, rfl⟩
  · rw [hfind] at h
    simp at h

/-- Witness for C10: a two-root call; the first root seeds the override
builder and the walker, the second becomes an extra root. -/
theorem c10_scan_roots_witness :
    (scan [] defaultOptions true ExitCode.success false =
      ScanResult.panic ("Error: Path vector can not be empty")) ∧
    ((walkerSetupOf ("/a") ["/b"] defaultOptions).overrideBase = "/a" ∧
      (walkerSetupOf ("/a") ["/b"] defaultOptions).primaryRoot = "/a" ∧
      (walkerSetupOf ("/a") ["/b"] defaultOptions).extraRoots = ["/b"]) :=
  ⟨(c10_scan_roots defaultOptions true ExitCode.success false).1,
    (c10_scan_roots defaultOptions true ExitCode.success false).2
      "/a" ["/b"] (walkerSetupOf ("/a") ["/b"] defaultOptions)
      ExitCode.success rfl⟩

end Walk
